import Mathlib

/-!
Shallow embedding of the accessibility-tree utilities and the selector
generator of the mcp-accessibility-bridge repository
(`src/utils/axTree.ts`, `src/utils/selectorGenerator.ts`), together with
theorems settling the specification claims about them.

Modelling conventions: JavaScript objects / `Map`s used as string-keyed
dictionaries become association lists with insert-with-overwrite
semantics (`insertA` / `getA`); `undefined`-able values become `Option`;
JavaScript string truthiness (`if (val)`) becomes `truthy`; template
literals become explicit string concatenation.  The single-quote
character is written `"\x27"` throughout.
-/

/-- The single-quote character, as a string. -/
def sQuote : String := "\x27"

/-- Association-list lookup, mirroring `map[k]` / `Map.get(k)` on a
dictionary built with `insertA` (keys are unique, so `find?` returns the
binding). -/
def getA {α : Type} (m : List (String × α)) (k : String) : Option α :=
  (m.find? (fun p => p.1 == k)).map (fun p => p.2)

/-- Association-list insert with overwrite, mirroring `map[k] = v` on a
JavaScript object / `Map.set`: an existing binding is updated in place,
a new key is appended. -/
def insertA {α : Type} (m : List (String × α)) (k : String) (v : α) :
    List (String × α) :=
  if m.any (fun p => p.1 == k) then
    m.map (fun p => if p.1 == k then (k, v) else p)
  else m ++ [(k, v)]

/-- JavaScript truthiness of a possibly-`undefined` string value. -/
def truthy : Option String → Bool
  | some s => !s.isEmpty
  | none => false

/-! ## Data model (`src/browser/types.ts`)

The untyped payload of a `CdpAXValue` (`value?: unknown`) is modelled as
a string: no operation of the core inspects it other than copying it or
applying `?? default`, so the choice of payload universe is irrelevant
to every claim. -/

/-- `CdpAXValue`: a typed-value wrapper (`{ type, value? }`). -/
structure CdpAXValue where
  type : String
  value : Option String := none
deriving DecidableEq, Repr

/-- `CdpAXProperty`: a named property (`{ name, value }`). -/
structure CdpAXProperty where
  name : String
  value : CdpAXValue
deriving DecidableEq, Repr

/-- `CdpAXNode`: one raw accessibility node of the flat snapshot list. -/
structure CdpAXNode where
  nodeId : String
  ignored : Bool
  ignoredReasons : Option (List CdpAXProperty) := none
  role : Option CdpAXValue := none
  name : Option CdpAXValue := none
  description : Option CdpAXValue := none
  value : Option CdpAXValue := none
  properties : Option (List CdpAXProperty) := none
  parentId : Option String := none
  childIds : Option (List String) := none
  backendDOMNodeId : Option Int := none
  frameId : Option String := none
deriving DecidableEq, Repr

/-- `AXNodeSummary`: the canonical summary record.  Optional fields are
`Option`s; `children`, when present, is a list of sub-summaries. -/
structure AXNodeSummary where
  role : String
  name : String
  description : Option String := none
  value : Option String := none
  focused : Option String := none
  disabled : Option String := none
  checked : Option String := none
  expanded : Option String := none
  required : Option String := none
  level : Option String := none
  backendDOMNodeId : Option Int := none
  nodeId : String
  children : Option (List AXNodeSummary) := none

/-! ## `src/utils/axTree.ts` -/

/-- `getPropertyValue(props, name)`: find the property named `name` and
return `prop?.value?.value`. -/
def getPropertyValue (props : Option (List CdpAXProperty)) (name : String) :
    Option String :=
  match props with
  | none => none
  | some ps =>
    match ps.find? (fun p => p.name == name) with
    | some p => p.value.value
    | none => none

/-- `cdpAXNodeToSummary(node)`: convert a raw node into a summary.  The
`children` field is never set here. -/
def cdpAXNodeToSummary (node : CdpAXNode) : AXNodeSummary :=
  let props := node.properties.getD []
  { role := (node.role.bind (fun v => v.value)).getD "unknown"
    name := (node.name.bind (fun v => v.value)).getD ""
    description := node.description.bind (fun v => v.value)
    value := node.value.bind (fun v => v.value)
    focused := getPropertyValue (some props) "focused"
    disabled := getPropertyValue (some props) "disabled"
    checked := getPropertyValue (some props) "checked"
    expanded := getPropertyValue (some props) "expanded"
    required := getPropertyValue (some props) "required"
    level := getPropertyValue (some props) "level"
    backendDOMNodeId := node.backendDOMNodeId
    nodeId := node.nodeId
    children := none }

/-- `buildTreeIndex(nodes)`: id → node index, later occurrence wins. -/
def buildTreeIndex (nodes : List CdpAXNode) : List (String × CdpAXNode) :=
  nodes.foldl (fun idx n => insertA idx n.nodeId n) []

/-- `assembleTree(node, index, depth, maxDepth)`: recursively assemble a
summary tree.  The counters `depth`/`maxDepth` are transcribed as `Nat`
here, which is faithful to every run whose counters are finite integers
below `2^53` — the right setting for the structural theorems, with the
recursion well founded on `maxDepth - depth`.  The source's counters
are JavaScript numbers, and its termination behaviour on the values a
`Nat` cannot represent (`Infinity`, and integral floats at or beyond
`2^53`, where `depth + 1` saturates) is modelled separately by
`assembleTreeFuelJs` below. -/
def assembleTree (node : CdpAXNode) (index : List (String × CdpAXNode))
    (depth maxDepth : Nat) : AXNodeSummary :=
  let summary := cdpAXNodeToSummary node
  if h : depth ≥ maxDepth ∨ node.childIds = none ∨ node.childIds = some [] then
    summary
  else
    let children := (node.childIds.getD []).filterMap (fun childId =>
      match getA index childId with
      | some child =>
        if child.ignored then none
        else some (assembleTree child index (depth + 1) maxDepth)
      | none => none)
    if 0 < children.length then { summary with children := some children }
    else summary
termination_by maxDepth - depth
decreasing_by
  simp only [not_or, not_le] at h
  omega

/-- `pruneToDepth(node, maxDepth)`: trim an assembled tree to at most
`maxDepth` levels (`maxDepth <= 1 || !node.children` returns a copy with
the `children` field removed).  The recursion decreases `maxDepth`. -/
def pruneToDepth (node : AXNodeSummary) (maxDepth : Nat) : AXNodeSummary :=
  match node.children with
  | none => { node with children := none }
  | some cs =>
    if h : maxDepth ≤ 1 then { node with children := none }
    else { node with children := some (cs.map (fun c => pruneToDepth c (maxDepth - 1))) }
termination_by maxDepth
decreasing_by omega

/-! ## `src/utils/selectorGenerator.ts` -/

/-- `Stability`: the `'high' | 'medium' | 'low'` union. -/
inductive Stability where
  | high
  | medium
  | low
deriving DecidableEq, Repr

/-- `SuggestedSelectors`: the selector bundle interface. -/
structure SuggestedSelectors where
  testId : Option String := none
  id : Option String := none
  aria : Option String := none
  css : Option String := none
  playwright : Option String := none
  selenium : Option String := none
  cypress : Option String := none
  webdriverio : Option String := none
  stability : Stability
  recommended : String
deriving DecidableEq, Repr

/-- `TEST_ID_ATTRS`: the fixed ordered list of test-id attribute names. -/
def TEST_ID_ATTRS : List String := ["data-testid", "data-cy", "data-test", "data-qa"]

/-- `parseAttrs` loop body: pair up consecutive entries
(`for (i = 0; i + 1 < length; i += 2) map[a[i]] = a[i+1]`). -/
def parseAttrsAux : List String → List (String × String) → List (String × String)
  | k :: v :: rest, m => parseAttrsAux rest (insertA m k v)
  | _, m => m

/-- `parseAttrs(attributes)`: flat `[k, v, k, v, ...]` array to map;
absent input yields the empty map. -/
def parseAttrs : Option (List String) → List (String × String)
  | none => []
  | some l => parseAttrsAux l []

/-- `s.toLowerCase()`: lower-case every character (a kernel-reducible
version of `String.toLower`, which also maps `Char.toLower` over the
characters). -/
def toLowerStr (s : String) : String := String.mk (s.data.map Char.toLower)

/-- Global single-character replacement, the effect of
`str.replace(/c/g, rep)`. -/
def replaceChar (l : List Char) (pat : Char) (rep : List Char) : List Char :=
  l.flatMap (fun c => if c == pat then rep else [c])

/-- One character of `[a-f0-9]` under the `i` flag. -/
def isHexDigitCI (c : Char) : Bool :=
  c.isDigit || (('a' ≤ c && c ≤ 'f') || ('A' ≤ c && c ≤ 'F'))

/-- `UNSTABLE_ID_RE.test(s)` for
`/^(mat-|ng-|[0-9]|[a-f0-9]{8}-)/i`: the string starts with `mat-` or
`ng-` (case-insensitively), with a decimal digit, or with eight
hex digits followed by a dash. -/
def unstableIdTest (s : String) : Bool :=
  "mat-".data.isPrefixOf (toLowerStr s).data ||
  "ng-".data.isPrefixOf (toLowerStr s).data ||
  (match s.data with
   | [] => false
   | c :: _ => c.isDigit) ||
  ((s.data.take 8).length == 8 && (s.data.take 8).all isHexDigitCI &&
   (match s.data.drop 8 with
    | [] => false
    | c :: _ => c == '-'))

/-- `escapeStr(s)`: `s.replace(/'/g, "\\'").replace(/"/g, '\\"')`. -/
def escapeStr (s : String) : String :=
  String.mk (replaceChar (replaceChar s.data '\x27' ('\\' :: '\x27' :: []))
    '"' ('\\' :: '"' :: []))

/-- `buildAriaSelector(role, name)`. -/
def buildAriaSelector (role name : String) : String :=
  if name.isEmpty then "role=" ++ role
  else "role=" ++ role ++ "[name=" ++ sQuote ++ escapeStr name ++ sQuote ++ "]"

/-- The CDP-AX-role → Playwright-ARIA-role map of `buildPlaywrightByRole`. -/
def roleMap : List (String × String) :=
  [("textbox", "textbox"), ("searchbox", "searchbox"), ("combobox", "combobox"),
   ("button", "button"), ("link", "link"), ("checkbox", "checkbox"),
   ("radio", "radio"), ("listbox", "listbox"), ("option", "option"),
   ("menuitem", "menuitem"), ("tab", "tab"), ("switch", "switch"),
   ("slider", "slider"), ("spinbutton", "spinbutton"), ("gridcell", "gridcell")]

/-- `buildPlaywrightByRole(role, name)`. -/
def buildPlaywrightByRole (role name : String) : String :=
  let ariaRole := (getA roleMap role).getD role
  if name.isEmpty then
    "page.getByRole(" ++ sQuote ++ escapeStr ariaRole ++ sQuote ++ ")"
  else
    "page.getByRole(" ++ sQuote ++ escapeStr ariaRole ++ sQuote ++
      ", \x7b name: " ++ sQuote ++ escapeStr name ++ sQuote ++ " \x7d)"

/-- `buildXPath(role, name, tag)`. -/
def buildXPath (role name tag : String) : String :=
  if !name.isEmpty then
    "//" ++ tag ++ "[@aria-label=" ++ sQuote ++ escapeStr name ++ sQuote ++
      " or @title=" ++ sQuote ++ escapeStr name ++ sQuote ++ "]"
  else
    "//" ++ tag ++ "[@role=" ++ sQuote ++ role ++ sQuote ++ "]"

/-- `buildSemanticCss(tag, attrs)`: the tag followed by
`[attr="value"]` fragments for the truthy "useful" attributes. -/
def buildSemanticCss (tag : String) (attrs : List (String × String)) : String :=
  let useful := ["type", "name", "role", "placeholder"]
  let parts := tag :: useful.filterMap (fun attr =>
    match getA attrs attr with
    | some v => if v.isEmpty then none else some ("[" ++ attr ++ "=\"" ++ v ++ "\"]")
    | none => none)
  String.join parts

/-- Tier-1 bundle: the record returned when test-id attribute `attr`
carries the (truthy) value `val`. -/
def tier1Bundle (attr val role name : String) : SuggestedSelectors :=
  let attrSelector := "[" ++ attr ++ "=\"" ++ val ++ "\"]"
  let pw := if attr == "data-testid"
    then "page.getByTestId(" ++ sQuote ++ escapeStr val ++ sQuote ++ ")"
    else "page.locator(" ++ sQuote ++ "[" ++ attr ++ "=\"" ++ escapeStr val ++ "\"]" ++ sQuote ++ ")"
  { testId := some attrSelector
    aria := some (buildAriaSelector role name)
    css := some attrSelector
    playwright := some pw
    selenium := some ("driver.find_element(By.CSS_SELECTOR, " ++ sQuote ++ attrSelector ++ sQuote ++ ")")
    cypress := some ("cy.get(" ++ sQuote ++ attrSelector ++ sQuote ++ ")")
    webdriverio := some ("$(" ++ sQuote ++ attrSelector ++ sQuote ++ ")")
    stability := Stability.high
    recommended := pw }

/-- Tier-2 bundle: the record returned for a stable `id` value. -/
def tier2Bundle (idVal role name : String) : SuggestedSelectors :=
  let idSelector := "#" ++ idVal
  { id := some idSelector
    aria := some (buildAriaSelector role name)
    css := some idSelector
    playwright := some ("page.locator(" ++ sQuote ++ idSelector ++ sQuote ++ ")")
    selenium := some ("driver.find_element(By.ID, " ++ sQuote ++ escapeStr idVal ++ sQuote ++ ")")
    cypress := some ("cy.get(" ++ sQuote ++ idSelector ++ sQuote ++ ")")
    webdriverio := some ("$(" ++ sQuote ++ idSelector ++ sQuote ++ ")")
    stability := Stability.high
    recommended := "page.locator(" ++ sQuote ++ idSelector ++ sQuote ++ ")" }

/-- Tier-3 bundle: the record returned when both `name` and `role` are
truthy (no test id, no stable id). -/
def tier3Bundle (name role tag : String) (attrs : List (String × String)) :
    SuggestedSelectors :=
  let ariaSelector := buildAriaSelector role name
  let playwrightByRole := buildPlaywrightByRole role name
  let xpathSelector := buildXPath role name tag
  { aria := some ariaSelector
    css := some (buildSemanticCss tag attrs)
    playwright := some playwrightByRole
    selenium := some ("driver.find_element(By.XPATH, " ++ sQuote ++ xpathSelector ++ sQuote ++ ")")
    cypress := some ("cy.get(" ++ sQuote ++
      (let s := buildSemanticCss tag attrs; if s.isEmpty then tag else s) ++ sQuote ++ ")")
    webdriverio := some ("$(" ++ sQuote ++ ariaSelector ++ sQuote ++ ")")
    stability := Stability.medium
    recommended := playwrightByRole }

/-- Tier-4 bundle: the semantic-CSS fallback record. -/
def tier4Bundle (tag : String) (attrs : List (String × String)) :
    SuggestedSelectors :=
  let semanticCss := let s := buildSemanticCss tag attrs; if s.isEmpty then tag else s
  { css := some semanticCss
    playwright := some ("page.locator(" ++ sQuote ++ semanticCss ++ sQuote ++ ")")
    selenium := some ("driver.find_element(By.CSS_SELECTOR, " ++ sQuote ++ semanticCss ++ sQuote ++ ")")
    cypress := some ("cy.get(" ++ sQuote ++ semanticCss ++ sQuote ++ ")")
    webdriverio := some ("$(" ++ sQuote ++ semanticCss ++ sQuote ++ ")")
    stability := Stability.low
    recommended := "page.locator(" ++ sQuote ++ semanticCss ++ sQuote ++ ")" }

/-- `buildSelectorFromRawNode(name, role, tagName, attributes)`: the
four-tier priority policy, first match wins. -/
def buildSelectorFromRawNode (name role tagName : String)
    (attributes : Option (List String)) : SuggestedSelectors :=
  match TEST_ID_ATTRS.findSome? (fun attr =>
      if truthy (getA (parseAttrs attributes) attr) then
        some (tier1Bundle attr ((getA (parseAttrs attributes) attr).getD "") role name)
      else none) with
  | some b => b
  | none =>
    if truthy (getA (parseAttrs attributes) "id") &&
        !unstableIdTest ((getA (parseAttrs attributes) "id").getD "") then
      tier2Bundle ((getA (parseAttrs attributes) "id").getD "") role name
    else if !name.isEmpty && !role.isEmpty then
      tier3Bundle name role (toLowerStr tagName) (parseAttrs attributes)
    else
      tier4Bundle (toLowerStr tagName) (parseAttrs attributes)

/-! ## Auxiliary definitions for the theorems -/

/-- Size bound used for structural recursion over summaries: a child
listed in `children` is smaller than its parent. -/
theorem sizeOf_lt_of_mem_children {s : AXNodeSummary} {cs : List AXNodeSummary}
    {c : AXNodeSummary} (h : s.children = some cs) (hc : c ∈ cs) :
    sizeOf c < sizeOf s := by
  have h1 := List.sizeOf_lt_of_mem hc
  cases s
  simp_all
  omega

/-- All summaries of a tree: the root followed by the members of every
child subtree. -/
def subtreeList (s : AXNodeSummary) : List AXNodeSummary :=
  s :: ((s.children.getD []).attach.map (fun c => subtreeList c.1)).flatten
termination_by sizeOf s
decreasing_by
  obtain ⟨c, hc⟩ := c
  show sizeOf c < sizeOf s
  rcases h : s.children with _ | cs
  · rw [h] at hc; simp at hc
  · rw [h] at hc
    simp only [Option.getD_some] at hc
    exact sizeOf_lt_of_mem_children h hc

/-- The `children`-field invariant: in every subtree, `children` is
either absent or present with a nonempty list. -/
def childrenOk (s : AXNodeSummary) : Bool :=
  match h : s.children with
  | none => true
  | some cs => !cs.isEmpty && cs.attach.all (fun c => childrenOk c.1)
termination_by sizeOf s
decreasing_by
  exact sizeOf_lt_of_mem_children h c.2

/-- The depth of a summary tree: 1 for a leaf, one more than the
deepest child otherwise. -/
def treeDepth (s : AXNodeSummary) : Nat :=
  match h : s.children with
  | none => 1
  | some cs => 1 + (cs.attach.map (fun c => treeDepth c.1)).foldl max 0
termination_by sizeOf s
decreasing_by
  exact sizeOf_lt_of_mem_children h c.2

/-- A copy of a summary with the `children` field removed. -/
def stripKids (s : AXNodeSummary) : AXNodeSummary := { s with children := none }

/-- Substring test: `small` occurs contiguously inside `big`. -/
def occursIn (small big : String) : Bool :=
  (List.range (big.data.length + 1)).any (fun i =>
    (big.data.drop i).take small.data.length == small.data)

/-- The keys at even positions of a flat attribute sequence (a trailing
unpaired element contributes no key). -/
def evenKeys : List String → List String
  | k :: _ :: rest => k :: evenKeys rest
  | _ => []

/-- One node of a two-node parent/child cycle. -/
def cyclicNodeA : CdpAXNode :=
  { nodeId := "a", ignored := false, parentId := some "b", childIds := some ["b"] }

/-- The other node of the two-node cycle. -/
def cyclicNodeB : CdpAXNode :=
  { nodeId := "b", ignored := false, parentId := some "a", childIds := some ["a"] }

/-- The index of the cyclic node list. -/
def cyclicIndex : List (String × CdpAXNode) := buildTreeIndex [cyclicNodeA, cyclicNodeB]

/-- A concrete two-level summary tree. -/
def sampleLeaf : AXNodeSummary :=
  { role := "text", name := "y", nodeId := "2", children := none }

/-- Its root, with one child. -/
def sampleTree : AXNodeSummary :=
  { role := "button", name := "x", nodeId := "1", children := some [sampleLeaf] }

/-- An ignored node with a child reachable only through it. -/
def ignoredNode : CdpAXNode :=
  { nodeId := "ign", ignored := true, childIds := some ["hidden"] }

/-- The node reachable only through the ignored node. -/
def hiddenNode : CdpAXNode := { nodeId := "hidden", ignored := false }

/-- A root whose children include the ignored node. -/
def rootNode : CdpAXNode :=
  { nodeId := "root", ignored := false, childIds := some ["ign", "leaf"] }

/-- An ordinary leaf. -/
def leafNode : CdpAXNode := { nodeId := "leaf", ignored := false }

/-- A node list containing an ignored node. -/
def sampleNodes : List CdpAXNode := [rootNode, ignoredNode, hiddenNode, leafNode]

/-! ## JavaScript-number model for the depth counters

`assembleTree`'s `depth` and `maxDepth` are JavaScript numbers (binary64
floats), not mathematical integers, and argument validation is outside
the core: `maxDepth` may be `Infinity`, or an integral float at or
beyond `2^53 = 9007199254740992` (such values even pass an
`int().positive()` check, being integral), at which magnitude
`depth + 1` rounds back to `depth`.  The structural theorems use the
`Nat` transcription above, which is faithful for every finite run; the
termination question is settled over `JsNum`, which models exactly the
values the two counters can take: non-negative integral floats up to
the saturation point, and `Infinity`. -/

/-- A JavaScript number as used by the depth counters: a non-negative
integral float or `Infinity`. -/
inductive JsNum where
  | finite (n : Nat)
  | infinity
deriving DecidableEq, Repr

/-- `2^53`, the first integral binary64 value with `x + 1 == x`. -/
def maxSafeStep : Nat := 9007199254740992

/-- JavaScript `x + 1` on the counter values: exact below `2^53`,
saturating there (`2^53 + 1` is not representable and rounds back), and
`Infinity + 1 == Infinity`. -/
def jsAdd1 : JsNum → JsNum
  | JsNum.finite n => JsNum.finite (if n < maxSafeStep then n + 1 else n)
  | JsNum.infinity => JsNum.infinity

/-- JavaScript `x >= y` on the counter values. -/
def jsGe : JsNum → JsNum → Bool
  | JsNum.finite a, JsNum.finite b => decide (b ≤ a)
  | JsNum.finite _, JsNum.infinity => false
  | JsNum.infinity, _ => true

/-- Fuel-indexed transcription of `assembleTree` over the JS-number
counters: each recursion level consumes one unit of fuel and `none`
means the fuel ran out, so an input on which every fuel returns `none`
is one on which the source recursion never terminates.  The children
loop (`for (childId of node.childIds)`) is a left fold that propagates
fuel exhaustion. -/
def assembleTreeFuelJs : Nat → CdpAXNode → List (String × CdpAXNode) →
    JsNum → JsNum → Option AXNodeSummary
  | 0, _, _, _, _ => none
  | fuel + 1, node, index, depth, maxDepth =>
    let summary := cdpAXNodeToSummary node
    if jsGe depth maxDepth ∨ node.childIds = none ∨ node.childIds = some [] then
      some summary
    else
      let result := (node.childIds.getD []).foldl (fun acc childId =>
        match acc with
        | none => none
        | some cs =>
          match getA index childId with
          | some child =>
            if child.ignored then some cs
            else
              match assembleTreeFuelJs fuel child index (jsAdd1 depth) maxDepth with
              | none => none
              | some s => some (cs ++ [s])
          | none => some cs) (some [])
      match result with
      | none => none
      | some children =>
        some (if 0 < children.length then { summary with children := some children }
              else summary)


/-- Reachability from `start` through the index along non-ignored
children: the relation the assembler's walk actually follows.  A node
reachable from the root only through an ignored node is not related,
since every `child` step requires an index hit with `ignored = false`. -/
inductive ReachableUnignored (index : List (String × CdpAXNode))
    (start : CdpAXNode) : CdpAXNode → Prop where
  | refl : ReachableUnignored index start start
  | child {n c : CdpAXNode} {cid : String} :
      ReachableUnignored index start n →
      cid ∈ n.childIds.getD [] →
      getA index cid = some c →
      c.ignored = false →
      ReachableUnignored index start c

/-! ## Theorems -/

/-- A property that holds of every value produced by the scanning
function holds of a successful `findSome?` result. -/
theorem findSome_prop {α β : Type} {P : β → Prop} {f : α → Option β}
    {l : List α} {b : β} (h : l.findSome? f = some b)
    (hP : ∀ a b0, f a = some b0 → P b0) : P b := by
  induction l with
  | nil => simp [List.findSome?] at h
  | cons a t ih =>
    cases hf : f a with
    | some b0 =>
      simp only [List.findSome?, hf] at h
      injection h with h
      exact h ▸ hP a b0 hf
    | none =>
      simp only [List.findSome?, hf] at h
      exact ih h

/-- Every bundle returned by `buildSelectorFromRawNode` is one of the
four tier bundles (with the matching arguments). -/
theorem buildSelector_cases (name role tagName : String)
    (attributes : Option (List String)) :
    (∃ attr val, buildSelectorFromRawNode name role tagName attributes =
        tier1Bundle attr val role name) ∨
    (∃ idVal, buildSelectorFromRawNode name role tagName attributes =
        tier2Bundle idVal role name) ∨
    (buildSelectorFromRawNode name role tagName attributes =
        tier3Bundle name role (toLowerStr tagName) (parseAttrs attributes)) ∨
    (buildSelectorFromRawNode name role tagName attributes =
        tier4Bundle (toLowerStr tagName) (parseAttrs attributes)) := by
  unfold buildSelectorFromRawNode
  split
  next b hf =>
    left
    refine findSome_prop (P := fun b => ∃ attr val, b = tier1Bundle attr val role name)
      hf ?_
    intro a b0 h0
    by_cases ht : truthy (getA (parseAttrs attributes) a)
    · rw [if_pos ht] at h0
      injection h0 with h0
      exact ⟨a, (getA (parseAttrs attributes) a).getD "", h0.symm⟩
    · rw [if_neg ht] at h0
      simp at h0
  next hf =>
    right
    split
    next h2 => exact Or.inl ⟨_, rfl⟩
    next h2 =>
      split
      next h3 => exact Or.inr (Or.inl rfl)
      next h3 => exact Or.inr (Or.inr rfl)

/-- Claim C10: in every tier, the `recommended` string of the bundle
produced by `buildSelectorFromRawNode` is exactly the bundle's
`playwright` framework string. -/
theorem recommended_equals_playwright (name role tagName : String)
    (attributes : Option (List String)) :
    (buildSelectorFromRawNode name role tagName attributes).playwright =
      some (buildSelectorFromRawNode name role tagName attributes).recommended := by
  rcases buildSelector_cases name role tagName attributes with
    ⟨attr, val, h⟩ | ⟨idVal, h⟩ | h | h <;> rw [h] <;> rfl

/-- Claim C2: whichever tier wins, the bundle carries one locator string
per supported framework grammar — `css`, `playwright`, `selenium`,
`cypress` and `webdriverio`, five in total — even when the underlying
locator coincides across frameworks. -/
theorem bundle_has_five_framework_strings (name role tagName : String)
    (attributes : Option (List String)) :
    (buildSelectorFromRawNode name role tagName attributes).css.isSome = true ∧
    (buildSelectorFromRawNode name role tagName attributes).playwright.isSome = true ∧
    (buildSelectorFromRawNode name role tagName attributes).selenium.isSome = true ∧
    (buildSelectorFromRawNode name role tagName attributes).cypress.isSome = true ∧
    (buildSelectorFromRawNode name role tagName attributes).webdriverio.isSome = true := by
  rcases buildSelector_cases name role tagName attributes with
    ⟨attr, val, h⟩ | ⟨idVal, h⟩ | h | h <;> rw [h] <;>
    exact ⟨rfl, rfl, rfl, rfl, rfl⟩

/-- Claim C3 counterexample: the attribute map contains the canonical
test-id attribute `data-testid` (with an empty value) together with a
non-auto-generated `id`, yet the bundle wins through the id tier: the
`testId` locator is absent and the id-based locator is populated. -/
theorem testid_priority_counterexample :
    (buildSelectorFromRawNode "x" "button" "button"
        (some ["data-testid", "", "id", "email"])).testId = none ∧
    getA (parseAttrs (some ["data-testid", "", "id", "email"])) "data-testid" =
      some "" ∧
    unstableIdTest "email" = false ∧
    (buildSelectorFromRawNode "x" "button" "button"
        (some ["data-testid", "", "id", "email"])).id = some "#email" ∧
    (buildSelectorFromRawNode "x" "button" "button"
        (some ["data-testid", "", "id", "email"])).stability = Stability.high := by
  decide

/-- Claim C3 (amended): when the attribute map carries `data-testid`
with a nonempty value (alongside a nonempty, non-auto-generated `id`),
the bundle reports stability high via the test-id tier: `testId` is
populated and the id-based locator is absent. -/
theorem testid_tier_beats_id_tier (name role tagName v idv : String)
    (attributes : Option (List String))
    (htid : getA (parseAttrs attributes) "data-testid" = some v)
    (hv : v.isEmpty = false)
    (hid : getA (parseAttrs attributes) "id" = some idv)
    (hidv : idv.isEmpty = false)
    (hstable : unstableIdTest idv = false) :
    (buildSelectorFromRawNode name role tagName attributes).testId =
      some ("[data-testid=\"" ++ v ++ "\"]") ∧
    (buildSelectorFromRawNode name role tagName attributes).id = none ∧
    (buildSelectorFromRawNode name role tagName attributes).stability =
      Stability.high := by
  unfold buildSelectorFromRawNode
  simp only [TEST_ID_ATTRS, List.findSome?, htid, truthy, hv, Bool.not_false,
    if_pos, Option.getD_some]
  exact ⟨rfl, rfl, rfl⟩

/-- Claim C3 witness: spec scenario B extended with a stable id. -/
theorem testid_tier_beats_id_tier_witness :
    (buildSelectorFromRawNode "Submit" "button" "button"
        (some ["data-testid", "submit-btn", "id", "email"])).testId =
      some "[data-testid=\"submit-btn\"]" ∧
    (buildSelectorFromRawNode "Submit" "button" "button"
        (some ["data-testid", "submit-btn", "id", "email"])).id = none ∧
    (buildSelectorFromRawNode "Submit" "button" "button"
        (some ["data-testid", "submit-btn", "id", "email"])).stability =
      Stability.high :=
  testid_tier_beats_id_tier "Submit" "button" "button" "submit-btn" "email"
    (some ["data-testid", "submit-btn", "id", "email"])
    (by decide) (by decide) (by decide) (by decide) (by decide)

/-- Claim C4: with no test-id attribute present and an `id` matching the
reserved auto-generated pattern, the id never wins tier 2: the id-based
locator is absent and the policy falls through to tier 3 (stability
medium, when both name and role are nonempty) or tier 4 (stability
low). -/
theorem unstable_id_falls_through (name role tagName idv : String)
    (attributes : Option (List String))
    (h1 : getA (parseAttrs attributes) "data-testid" = none)
    (h2 : getA (parseAttrs attributes) "data-cy" = none)
    (h3 : getA (parseAttrs attributes) "data-test" = none)
    (h4 : getA (parseAttrs attributes) "data-qa" = none)
    (hid : getA (parseAttrs attributes) "id" = some idv)
    (hu : unstableIdTest idv = true) :
    (buildSelectorFromRawNode name role tagName attributes).id = none ∧
    (buildSelectorFromRawNode name role tagName attributes).testId = none ∧
    (buildSelectorFromRawNode name role tagName attributes).stability =
      (if !name.isEmpty && !role.isEmpty then Stability.medium else Stability.low) := by
  unfold buildSelectorFromRawNode
  simp only [TEST_ID_ATTRS, List.findSome?, h1, h2, h3, h4, truthy, hid, hu,
    Option.getD_some, Bool.not_true, Bool.and_false, Bool.false_eq_true,
    if_false]
  by_cases h5 : (!name.isEmpty && !role.isEmpty) = true <;>
    simp [h5, tier3Bundle, tier4Bundle]

/-- Claim C4 witness: the auto-generated id `mat-input-3` with role
`button` and name `Submit` falls through to tier 3. -/
theorem unstable_id_falls_through_witness :
    (buildSelectorFromRawNode "Submit" "button" "button"
        (some ["id", "mat-input-3"])).id = none ∧
    (buildSelectorFromRawNode "Submit" "button" "button"
        (some ["id", "mat-input-3"])).testId = none ∧
    (buildSelectorFromRawNode "Submit" "button" "button"
        (some ["id", "mat-input-3"])).stability =
      (if !"Submit".isEmpty && !"button".isEmpty then Stability.medium
       else Stability.low) :=
  unstable_id_falls_through "Submit" "button" "button" "mat-input-3"
    (some ["id", "mat-input-3"])
    (by decide) (by decide) (by decide) (by decide) (by decide) (by decide)

/-- `getA` misses exactly when no binding carries the key. -/
theorem getA_eq_none_iff {α : Type} {m : List (String × α)} {k : String} :
    getA m k = none ↔ m.any (fun p => p.1 == k) = false := by
  induction m with
  | nil => simp [getA]
  | cons p t ih =>
    unfold getA List.find? at *
    cases h : p.1 == k <;> simp_all

/-- Appending a fresh binding preserves a miss on a different key. -/
theorem getA_append_single {α : Type} {m : List (String × α)} {k k' : String}
    {v : α} (h : getA m k' = none) (hne : k' ≠ k) :
    getA (m ++ [(k, v)]) k' = none := by
  unfold getA at *
  rw [List.find?_append]
  rw [Option.map_eq_none'] at h
  rw [h]
  have hkk : (k == k') = false := beq_eq_false_iff_ne.mpr (Ne.symm hne)
  simp [List.find?, hkk]

/-- Entry count of the attribute-map fold: when the pending even-position
keys are distinct and none is already bound, each pair adds one entry. -/
theorem parseAttrsAux_length :
    ∀ (l : List String) (m : List (String × String)), (evenKeys l).Nodup →
      (∀ k ∈ evenKeys l, getA m k = none) →
      (parseAttrsAux l m).length = m.length + l.length / 2
  | [], m, _, _ => by simp [parseAttrsAux]
  | [k], m, _, _ => by simp [parseAttrsAux]
  | k :: v :: rest, m, hnd, hdisj => by
    have hk : getA m k = none := hdisj k (by simp [evenKeys])
    have hins : insertA m k v = m ++ [(k, v)] := by
      unfold insertA
      rw [if_neg]
      rw [getA_eq_none_iff] at hk
      simp [hk]
    have hnd' : (evenKeys rest).Nodup := by
      simp [evenKeys] at hnd; exact hnd.2
    have hknotin : k ∉ evenKeys rest := by
      simp [evenKeys] at hnd; exact hnd.1
    have hdisj' : ∀ k' ∈ evenKeys rest, getA (insertA m k v) k' = none := by
      intro k' hk'
      rw [hins]
      exact getA_append_single (hdisj k' (by simp [evenKeys, hk']))
        (fun he => hknotin (he ▸ hk'))
    calc (parseAttrsAux (k :: v :: rest) m).length
        = (parseAttrsAux rest (insertA m k v)).length := by rw [parseAttrsAux]
      _ = (insertA m k v).length + rest.length / 2 :=
          parseAttrsAux_length rest (insertA m k v) hnd' hdisj'
      _ = m.length + (k :: v :: rest).length / 2 := by
          rw [hins]
          simp only [List.length_append, List.length_cons, List.length_nil]
          omega

/-- Claim C5 counterexample: the even-length sequence
`["a","1","a","2"]` (length 4) yields a single-entry mapping, not the
claimed `4 / 2 = 2` entries, because the duplicate key overwrites. -/
theorem parseAttrs_pairing_counterexample :
    (["a", "1", "a", "2"] : List String).length = 4 ∧
    (parseAttrs (some ["a", "1", "a", "2"])).length = 1 ∧
    parseAttrs (some ["a", "1", "a", "2"]) = [("a", "2")] := by
  decide

/-- Claim C5 (amended): when the keys at even positions are pairwise
distinct, a flat attribute sequence of length `n` yields exactly
`⌊n / 2⌋` entries (covering both the even case and the odd case, whose
trailing element is dropped), and an absent input yields the empty
mapping; with duplicate keys the map instead keeps one entry per
distinct key, last value winning. -/
theorem parseAttrs_pairing (l : List String) (hnd : (evenKeys l).Nodup) :
    (parseAttrs (some l)).length = l.length / 2 ∧ parseAttrs none = [] :=
  ⟨by simpa using parseAttrsAux_length l [] hnd (by simp [getA]), rfl⟩

/-- Claim C5 witness: a five-element sequence with distinct keys has
`⌊5 / 2⌋ = 2` entries; the absent input yields the empty map. -/
theorem parseAttrs_pairing_witness :
    (parseAttrs (some ["a", "1", "b", "2", "c"])).length = 2 ∧
    parseAttrs none = [] :=
  parseAttrs_pairing ["a", "1", "b", "2", "c"] (by decide)

/-- `occursIn` holds whenever the haystack decomposes around the
needle. -/
theorem occursIn_of_data (s big : String) (a c : List Char)
    (h : big.data = a ++ (s.data ++ c)) : occursIn s big = true := by
  unfold occursIn
  rw [List.any_eq_true]
  refine ⟨a.length, ?_, ?_⟩
  · rw [List.mem_range, h]
    simp only [List.length_append]
    omega
  · rw [h, List.drop_left]
    have := List.take_left s.data c
    rw [this]
    simp

/-- The selector builder lands in tier 3 when every test-id lookup is
falsy, the id condition fails, and name and role are nonempty. -/
theorem buildSelector_eq_tier3 (name role tagName : String)
    (attributes : Option (List String))
    (h1 : truthy (getA (parseAttrs attributes) "data-testid") = false)
    (h2 : truthy (getA (parseAttrs attributes) "data-cy") = false)
    (h3 : truthy (getA (parseAttrs attributes) "data-test") = false)
    (h4 : truthy (getA (parseAttrs attributes) "data-qa") = false)
    (hid : (truthy (getA (parseAttrs attributes) "id") &&
        !unstableIdTest ((getA (parseAttrs attributes) "id").getD "")) = false)
    (hn : name.isEmpty = false) (hr : role.isEmpty = false) :
    buildSelectorFromRawNode name role tagName attributes =
      tier3Bundle name role (toLowerStr tagName) (parseAttrs attributes) := by
  unfold buildSelectorFromRawNode
  simp only [TEST_ID_ATTRS, List.findSome?, h1, h2, h3, h4, hid, hn, hr,
    Bool.false_eq_true, if_false, Bool.not_false, Bool.and_self, if_true]

/-- Claim C1 counterexample: the test-id value `it's "fun"` contains
both quote characters, yet the emitted cypress expression embeds it raw
(the escaped form produced by `escapeStr` occurs nowhere in it), leaving
an unescaped single quote inside the expression's single-quoted
argument. -/
theorem escaping_counterexample :
    (buildSelectorFromRawNode "x" "button" "button"
        (some ["data-testid", "it\x27s \"fun\""])).cypress =
      some ("cy.get(" ++ sQuote ++ "[data-testid=\"it\x27s \"fun\"\"]" ++ sQuote ++ ")") ∧
    occursIn "it\x27s \"fun\""
      ((buildSelectorFromRawNode "x" "button" "button"
          (some ["data-testid", "it\x27s \"fun\""])).cypress.getD "") = true ∧
    occursIn (escapeStr "it\x27s \"fun\"")
      ((buildSelectorFromRawNode "x" "button" "button"
          (some ["data-testid", "it\x27s \"fun\""])).cypress.getD "") = false := by
  decide

/-- Claim C1 (amended): the accessible name — including one containing
both quote characters — is embedded through `escapeStr` (single and
double quotes escaped) in every role+name-tier framework string that
embeds it: aria, playwright, selenium (XPath) and webdriverio.
Attribute values embedded in the CSS-grammar strings of tiers 1, 2 and 4
(and tier 1's selenium/cypress/webdriverio strings) are embedded raw,
per the counterexample. -/
theorem name_escaped_in_tier3_strings (name role tagName : String)
    (attributes : Option (List String))
    (h1 : truthy (getA (parseAttrs attributes) "data-testid") = false)
    (h2 : truthy (getA (parseAttrs attributes) "data-cy") = false)
    (h3 : truthy (getA (parseAttrs attributes) "data-test") = false)
    (h4 : truthy (getA (parseAttrs attributes) "data-qa") = false)
    (hid : (truthy (getA (parseAttrs attributes) "id") &&
        !unstableIdTest ((getA (parseAttrs attributes) "id").getD "")) = false)
    (hn : name.isEmpty = false) (hr : role.isEmpty = false) :
    occursIn (escapeStr name)
      ((buildSelectorFromRawNode name role tagName attributes).aria.getD "") = true ∧
    occursIn (escapeStr name)
      ((buildSelectorFromRawNode name role tagName attributes).playwright.getD "") = true ∧
    occursIn (escapeStr name)
      ((buildSelectorFromRawNode name role tagName attributes).selenium.getD "") = true ∧
    occursIn (escapeStr name)
      ((buildSelectorFromRawNode name role tagName attributes).webdriverio.getD "") = true := by
  rw [buildSelector_eq_tier3 name role tagName attributes h1 h2 h3 h4 hid hn hr]
  refine ⟨?_, ?_, ?_, ?_⟩
  · exact occursIn_of_data _ _
      ("role=".data ++ role.data ++ "[name=".data ++ sQuote.data)
      (sQuote.data ++ "]".data)
      (by simp [tier3Bundle, buildAriaSelector, hn, String.data_append,
            List.append_assoc])
  · exact occursIn_of_data _ _
      ("page.getByRole(".data ++ sQuote.data ++
        (escapeStr ((getA roleMap role).getD role)).data ++ sQuote.data ++
        ", \x7b name: ".data ++ sQuote.data)
      (sQuote.data ++ " \x7d)".data)
      (by simp [tier3Bundle, buildPlaywrightByRole, hn, String.data_append,
            List.append_assoc])
  · exact occursIn_of_data _ _
      ("driver.find_element(By.XPATH, ".data ++ sQuote.data ++ "//".data ++
        (toLowerStr tagName).data ++ "[@aria-label=".data ++ sQuote.data)
      (sQuote.data ++ " or @title=".data ++ sQuote.data ++
        (escapeStr name).data ++ sQuote.data ++ "]".data ++ sQuote.data ++ ")".data)
      (by simp [tier3Bundle, buildXPath, hn, String.data_append,
            List.append_assoc])
  · exact occursIn_of_data _ _
      ("$(".data ++ sQuote.data ++ "role=".data ++ role.data ++ "[name=".data ++
        sQuote.data)
      (sQuote.data ++ "]".data ++ sQuote.data ++ ")".data)
      (by simp [tier3Bundle, buildAriaSelector, hn, String.data_append,
            List.append_assoc])

/-- Claim C1 witness: the spec's example name `Say "hi" there's`,
containing both quote characters, appears escaped in the four tier-3
framework strings that embed it. -/
theorem name_escaped_in_tier3_strings_witness :
    occursIn (escapeStr "Say \"hi\" there\x27s")
      ((buildSelectorFromRawNode "Say \"hi\" there\x27s" "button" "button"
          none).aria.getD "") = true ∧
    occursIn (escapeStr "Say \"hi\" there\x27s")
      ((buildSelectorFromRawNode "Say \"hi\" there\x27s" "button" "button"
          none).playwright.getD "") = true ∧
    occursIn (escapeStr "Say \"hi\" there\x27s")
      ((buildSelectorFromRawNode "Say \"hi\" there\x27s" "button" "button"
          none).selenium.getD "") = true ∧
    occursIn (escapeStr "Say \"hi\" there\x27s")
      ((buildSelectorFromRawNode "Say \"hi\" there\x27s" "button" "button"
          none).webdriverio.getD "") = true :=
  name_escaped_in_tier3_strings "Say \"hi\" there\x27s" "button" "button" none
    (by decide) (by decide) (by decide) (by decide) (by decide) (by decide)
    (by decide)

/-- A summary without a `children` field satisfies the invariant. -/
theorem childrenOk_none {s : AXNodeSummary} (h : s.children = none) :
    childrenOk s = true := by
  unfold childrenOk
  split
  · rfl
  · next heq => rw [h] at heq; cases heq

/-- Characterization of the invariant when `children` is present. -/
theorem childrenOk_some {s : AXNodeSummary} {cs : List AXNodeSummary}
    (h : s.children = some cs) :
    (childrenOk s = true ↔ cs ≠ [] ∧ ∀ c ∈ cs, childrenOk c = true) := by
  conv_lhs => rw [childrenOk]
  split
  · next heq => rw [h] at heq; cases heq
  · next cs' heq =>
    rw [h] at heq
    injection heq with heq
    subst heq
    rw [Bool.and_eq_true, List.all_eq_true]
    constructor
    · rintro ⟨h1, h2⟩
      refine ⟨?_, ?_⟩
      · intro hnil
        rw [hnil] at h1
        simp at h1
      · intro c hc
        exact h2 ⟨c, hc⟩ (List.mem_attach _ _)
    · rintro ⟨h1, h2⟩
      refine ⟨?_, ?_⟩
      · cases hcs : cs with
        | nil => exact absurd hcs h1
        | cons a t => rfl
      · intro c _
        exact h2 c.1 c.2

/-- The assembler's output satisfies the `children` invariant at every
level: attached child lists are nonempty and recursively invariant. -/
theorem assembleTree_childrenOk (index : List (String × CdpAXNode))
    (maxDepth : Nat) :
    ∀ (k depth : Nat) (node : CdpAXNode), maxDepth - depth ≤ k →
      childrenOk (assembleTree node index depth maxDepth) = true := by
  intro k
  induction k with
  | zero =>
    intro depth node hk
    rw [assembleTree, dif_pos (Or.inl (by omega : depth ≥ maxDepth))]
    exact childrenOk_none rfl
  | succ k ih =>
    intro depth node hk
    by_cases hguard : depth ≥ maxDepth ∨ node.childIds = none ∨
        node.childIds = some []
    · rw [assembleTree, dif_pos hguard]
      exact childrenOk_none rfl
    · rw [assembleTree, dif_neg hguard]
      have hd : depth < maxDepth := by
        rcases not_or.mp hguard with ⟨hle, _⟩
        omega
      by_cases hlen : 0 < ((node.childIds.getD []).filterMap (fun childId =>
          match getA index childId with
          | some child =>
            if child.ignored then none
            else some (assembleTree child index (depth + 1) maxDepth)
          | none => none)).length
      · rw [if_pos hlen]
        rw [childrenOk_some rfl]
        refine ⟨?_, ?_⟩
        · intro hnil
          rw [hnil] at hlen
          simp at hlen
        · intro c hc
          obtain ⟨cid, _, hcc⟩ := List.mem_filterMap.mp hc
          cases hga : getA index cid with
          | none => rw [hga] at hcc; simp at hcc
          | some child =>
            rw [hga] at hcc
            cases hig : child.ignored with
            | true => simp [hig] at hcc
            | false =>
              simp [hig] at hcc
              rw [← hcc]
              exact ih (depth + 1) child (by omega)
      · rw [if_neg hlen]
        exact childrenOk_none rfl

/-- The pruner preserves the `children` invariant. -/
theorem pruneToDepth_childrenOk :
    ∀ (d : Nat) (t : AXNodeSummary), childrenOk t = true →
      childrenOk (pruneToDepth t d) = true := by
  intro d
  induction d using Nat.strong_induction_on with
  | _ d ih =>
    intro t ht
    cases hc : t.children with
    | none =>
      rw [pruneToDepth, hc]
      exact childrenOk_none rfl
    | some cs =>
      rw [pruneToDepth, hc]
      by_cases hd : d ≤ 1
      · simp only [dif_pos hd]
        exact childrenOk_none rfl
      · simp only [dif_neg hd]
        rw [childrenOk_some rfl]
        obtain ⟨hne, hall⟩ := (childrenOk_some hc).mp ht
        refine ⟨?_, ?_⟩
        · intro hnil
          rw [List.map_eq_nil_iff] at hnil
          exact hne hnil
        · intro c hcmem
          obtain ⟨c0, hc0, hc0e⟩ := List.mem_map.mp hcmem
          rw [← hc0e]
          exact ih (d - 1) (by omega) c0 (hall c0 hc0)

/-- Claim C7: every summary produced by the summarizer, the assembler or
the pruner satisfies, recursively, the invariant that `children` is
either present-and-nonempty or entirely absent; the summarizer alone
always leaves `children` absent (the pruner, whose input is an
already-assembled summary, preserves the invariant it receives). -/
theorem children_invariant_all_producers :
    (∀ node : CdpAXNode, (cdpAXNodeToSummary node).children = none ∧
      childrenOk (cdpAXNodeToSummary node) = true) ∧
    (∀ (node : CdpAXNode) (index : List (String × CdpAXNode))
      (depth maxDepth : Nat),
      childrenOk (assembleTree node index depth maxDepth) = true) ∧
    (∀ (t : AXNodeSummary) (d : Nat), childrenOk t = true →
      childrenOk (pruneToDepth t d) = true) :=
  ⟨fun _ => ⟨rfl, childrenOk_none rfl⟩,
   fun node index depth maxDepth =>
     assembleTree_childrenOk index maxDepth (maxDepth - depth) depth node
       (Nat.le_refl _),
   fun t d ht => pruneToDepth_childrenOk d t ht⟩

/-- Claim C7 witness: the invariant theorem applied to the concrete
cyclic-index assembly and to a concrete pruner input whose invariant
hypothesis is discharged. -/
theorem children_invariant_all_producers_witness :
    (cdpAXNodeToSummary cyclicNodeA).children = none ∧
    childrenOk (assembleTree cyclicNodeA cyclicIndex 0 5) = true ∧
    childrenOk (pruneToDepth (cdpAXNodeToSummary cyclicNodeA) 3) = true :=
  ⟨(children_invariant_all_producers.1 cyclicNodeA).1,
   children_invariant_all_producers.2.1 cyclicNodeA cyclicIndex 0 5,
   children_invariant_all_producers.2.2 (cdpAXNodeToSummary cyclicNodeA) 3
     (childrenOk_none rfl)⟩

/-- Rebuilding a summary with its own `children` value is the identity. -/
theorem withChildren_eta (t : AXNodeSummary) :
    ({ t with children := t.children } : AXNodeSummary) = t := by
  cases t
  rfl

/-- Every tree has depth at least 1. -/
theorem treeDepth_none {t : AXNodeSummary} (h : t.children = none) :
    treeDepth t = 1 := by
  conv_lhs => rw [treeDepth]
  split
  · rfl
  · next heq => rw [h] at heq; cases heq

/-- Depth of a tree with children: one more than the deepest child. -/
theorem treeDepth_some {t : AXNodeSummary} {cs : List AXNodeSummary}
    (h : t.children = some cs) :
    treeDepth t = 1 + (cs.map treeDepth).foldl max 0 := by
  conv_lhs => rw [treeDepth]
  split
  · next heq => rw [h] at heq; cases heq
  · next cs' heq =>
    rw [h] at heq
    injection heq with heq
    subst heq
    rw [List.attach_map_val cs treeDepth]

/-- `treeDepth` is positive. -/
theorem treeDepth_pos (t : AXNodeSummary) : 1 ≤ treeDepth t := by
  cases hc : t.children with
  | none => rw [treeDepth_none hc]
  | some cs => rw [treeDepth_some hc]; omega

/-- The seed of a `max` fold is a lower bound of the result. -/
theorem le_foldl_max_init : ∀ (l : List Nat) (a : Nat), a ≤ l.foldl max a
  | [], _ => Nat.le_refl _
  | x :: t, a => Nat.le_trans (Nat.le_max_left a x) (le_foldl_max_init t (max a x))

/-- Every member of a list bounds below its `max` fold. -/
theorem le_foldl_max : ∀ (l : List Nat) (a x : Nat), x ∈ l → x ≤ l.foldl max a := by
  intro l
  induction l with
  | nil => intro a x h; cases h
  | cons y t ih =>
    intro a x h
    rw [List.foldl_cons]
    rcases List.mem_cons.mp h with h | h
    · subst h
      exact Nat.le_trans (Nat.le_max_right a x) (le_foldl_max_init t (max a x))
    · exact ih (max a y) x h

/-- Pruning a tree at or beyond its depth is the identity (for trees
satisfying the `children` invariant). -/
theorem pruneToDepth_identity :
    ∀ (d : Nat) (t : AXNodeSummary), childrenOk t = true → treeDepth t ≤ d →
      pruneToDepth t d = t := by
  intro d
  induction d using Nat.strong_induction_on with
  | _ d ih =>
    intro t ht hdep
    cases hc : t.children with
    | none =>
      rw [pruneToDepth, hc]
      have h2 := withChildren_eta t
      rw [hc] at h2
      exact h2
    | some cs =>
      obtain ⟨hne, hall⟩ := (childrenOk_some hc).mp ht
      have hdt : treeDepth t = 1 + (cs.map treeDepth).foldl max 0 :=
        treeDepth_some hc
      obtain ⟨c0, hc0⟩ := List.exists_mem_of_ne_nil cs hne
      have hb0 : treeDepth c0 ≤ (cs.map treeDepth).foldl max 0 :=
        le_foldl_max _ _ _ (List.mem_map_of_mem treeDepth hc0)
      have hp0 : 1 ≤ treeDepth c0 := treeDepth_pos c0
      have hd2 : ¬ d ≤ 1 := by omega
      rw [pruneToDepth, hc]
      simp only [dif_neg hd2]
      have hmap : cs.map (fun c => pruneToDepth c (d - 1)) = cs := by
        have hcongr : ∀ c ∈ cs, pruneToDepth c (d - 1) = c := by
          intro c hcm
          have hcb : treeDepth c ≤ (cs.map treeDepth).foldl max 0 :=
            le_foldl_max _ _ _ (List.mem_map_of_mem treeDepth hcm)
          exact ih (d - 1) (by omega) c (hall c hcm) (by omega)
        calc cs.map (fun c => pruneToDepth c (d - 1))
            = cs.map (fun c => c) := List.map_congr_left hcongr
          _ = cs := List.map_id' cs
      rw [hmap]
      have h2 := withChildren_eta t
      rw [hc] at h2
      exact h2

/-- Claim C9: pruning to depth 1 removes the `children` field for every
input, and pruning a tree (satisfying the `children` invariant) to any
depth at or beyond its actual depth is the identity on the tree. -/
theorem prune_depth_semantics :
    (∀ t : AXNodeSummary, (pruneToDepth t 1).children = none) ∧
    (∀ (t : AXNodeSummary) (d : Nat), childrenOk t = true → treeDepth t ≤ d →
      pruneToDepth t d = t) := by
  refine ⟨?_, fun t d ht hd => pruneToDepth_identity d t ht hd⟩
  intro t
  cases hc : t.children with
  | none => rw [pruneToDepth, hc]
  | some cs =>
    rw [pruneToDepth, hc]
    simp only [dif_pos (Nat.le_refl 1)]

/-- Claim C9 witness: a depth-2 tree pruned to 1 loses its children;
pruned to its depth 2 it is returned unchanged. -/
theorem prune_depth_semantics_witness :
    (pruneToDepth sampleTree 1).children = none ∧
    pruneToDepth sampleTree 2 = sampleTree :=
  ⟨prune_depth_semantics.1 sampleTree,
   prune_depth_semantics.2 sampleTree 2
     ((childrenOk_some rfl).mpr ⟨by simp, fun c hcm => by
        rw [List.mem_singleton] at hcm
        rw [hcm]
        exact childrenOk_none rfl⟩)
     (by rw [treeDepth_some rfl]
         simp [treeDepth_none (show sampleLeaf.children = none from rfl)])⟩

/-- A summary with no `children` field strips to itself. -/
theorem stripKids_of_none {s : AXNodeSummary} (h : s.children = none) :
    stripKids s = s := by
  unfold stripKids
  rw [← h]
  exact withChildren_eta s

/-- Stripping ignores a `children` overwrite. -/
theorem stripKids_set {x : AXNodeSummary} {cs : Option (List AXNodeSummary)} :
    stripKids { x with children := cs } = stripKids x := by
  cases x
  rfl

/-- The subtree list of a childless summary is that summary alone. -/
theorem subtreeList_of_none {s : AXNodeSummary} (h : s.children = none) :
    subtreeList s = [s] := by
  conv_lhs => rw [subtreeList]
  rw [h]
  rfl

/-- Membership in a subtree list: the root, or a member of some child's
subtree list. -/
theorem mem_subtreeList_iff {x r : AXNodeSummary} :
    x ∈ subtreeList r ↔
      x = r ∨ ∃ c ∈ r.children.getD [], x ∈ subtreeList c := by
  conv_lhs => rw [subtreeList]
  simp [List.mem_flatten, List.mem_map]

/-- Every summary is in its own subtree list. -/
theorem self_mem_subtreeList (s : AXNodeSummary) : s ∈ subtreeList s :=
  mem_subtreeList_iff.mpr (Or.inl rfl)

/-- Stripping the assembler's result recovers the plain node summary. -/
theorem assembleTree_stripKids (node : CdpAXNode)
    (index : List (String × CdpAXNode)) (depth maxDepth : Nat) :
    stripKids (assembleTree node index depth maxDepth) =
      cdpAXNodeToSummary node := by
  rw [assembleTree]
  by_cases hguard : depth ≥ maxDepth ∨ node.childIds = none ∨
      node.childIds = some []
  · rw [dif_pos hguard]
    exact stripKids_of_none rfl
  · rw [dif_neg hguard]
    by_cases hlen : 0 < ((node.childIds.getD []).filterMap (fun childId =>
        match getA index childId with
        | some child =>
          if child.ignored then none
          else some (assembleTree child index (depth + 1) maxDepth)
        | none => none)).length
    · rw [if_pos hlen]
      rw [stripKids_set]
      exact stripKids_of_none rfl
    · rw [if_neg hlen]
      exact stripKids_of_none rfl

/-- On the two-node cycle, when no reachable finite depth ever passes
the `depth >= maxDepth` check, every amount of fuel is exhausted. -/
theorem cycle_diverges_aux (M : JsNum)
    (hM : ∀ d : Nat, d ≤ maxSafeStep → jsGe (JsNum.finite d) M = false) :
    ∀ (fuel d : Nat), d ≤ maxSafeStep →
      ∀ node : CdpAXNode, (node = cyclicNodeA ∨ node = cyclicNodeB) →
        assembleTreeFuelJs fuel node cyclicIndex (JsNum.finite d) M = none := by
  intro fuel
  induction fuel with
  | zero => intro d _ node _; rfl
  | succ fuel ih =>
    intro d hd node hn
    have hd' : (if d < maxSafeStep then d + 1 else d) ≤ maxSafeStep := by
      split <;> omega
    have hadd : jsAdd1 (JsNum.finite d) =
        JsNum.finite (if d < maxSafeStep then d + 1 else d) := rfl
    rcases hn with rfl | rfl
    · have hrec := ih (if d < maxSafeStep then d + 1 else d) hd' cyclicNodeB
        (Or.inr rfl)
      have h1 : cyclicNodeA.childIds.getD [] = ["b"] := rfl
      have h2 : getA cyclicIndex "b" = some cyclicNodeB := rfl
      have h3 : cyclicNodeB.ignored = false := rfl
      simp only [assembleTreeFuelJs]
      rw [if_neg (by simp [hM d hd, cyclicNodeA])]
      simp [h1, h2, h3, hadd, hrec]
    · have hrec := ih (if d < maxSafeStep then d + 1 else d) hd' cyclicNodeA
        (Or.inl rfl)
      have h1 : cyclicNodeB.childIds.getD [] = ["a"] := rfl
      have h2 : getA cyclicIndex "a" = some cyclicNodeA := rfl
      have h3 : cyclicNodeA.ignored = false := rfl
      simp only [assembleTreeFuelJs]
      rw [if_neg (by simp [hM d hd, cyclicNodeB])]
      simp [h1, h2, h3, hadd, hrec]

/-- Claim C6: the assembler has no cycle guard and can recurse
indefinitely: on the two-node cyclic index — which revisits its
ancestor at depth 2, far below either limit — assembly with
`maxDepth = Infinity`, or with the integral float `2^53 + 2` (beyond
which the saturating `depth + 1` never advances), exhausts every
amount of fuel: the recursion never terminates. -/
theorem assembleTree_cycle_diverges (fuel : Nat) :
    assembleTreeFuelJs fuel cyclicNodeA cyclicIndex (JsNum.finite 0)
      JsNum.infinity = none ∧
    assembleTreeFuelJs fuel cyclicNodeA cyclicIndex (JsNum.finite 0)
      (JsNum.finite (maxSafeStep + 2)) = none :=
  ⟨cycle_diverges_aux JsNum.infinity (fun _ _ => rfl) fuel 0 (by omega)
      cyclicNodeA (Or.inl rfl),
   cycle_diverges_aux (JsNum.finite (maxSafeStep + 2))
      (fun d hd => by simp only [jsGe, decide_eq_false_iff_not]; omega)
      fuel 0 (by omega) cyclicNodeA (Or.inl rfl)⟩

/-- Reachability composes with an initial non-ignored child step. -/
theorem reachable_prepend {index : List (String × CdpAXNode)}
    {start c n : CdpAXNode} {cid : String}
    (hcid : cid ∈ start.childIds.getD []) (hga : getA index cid = some c)
    (hig : c.ignored = false) (h : ReachableUnignored index c n) :
    ReachableUnignored index start n := by
  induction h with
  | refl => exact ReachableUnignored.child ReachableUnignored.refl hcid hga hig
  | child _ hcid' hga' hig' ih =>
    exact ReachableUnignored.child ih hcid' hga' hig'

/-- A reachable node is the start or a non-ignored index entry. -/
theorem reachable_cases {index : List (String × CdpAXNode)}
    {start n : CdpAXNode} (h : ReachableUnignored index start n) :
    n = start ∨ ∃ cid, getA index cid = some n ∧ n.ignored = false := by
  cases h with
  | refl => exact Or.inl rfl
  | child _ hcid hga hig => exact Or.inr ⟨_, hga, hig⟩

/-- A successful lookup exhibits its binding as a member. -/
theorem getA_mem_pairs {α : Type} :
    ∀ {m : List (String × α)} {k : String} {v : α},
      getA m k = some v → (k, v) ∈ m := by
  intro m
  induction m with
  | nil => intro k v h; simp [getA] at h
  | cons p t ih =>
    intro k v h
    unfold getA List.find? at h
    cases hp : p.1 == k with
    | true =>
      rw [hp] at h
      simp only [Option.map_some'] at h
      injection h with h
      have hk : p.1 = k := by simpa using hp
      have hpe : p = (k, v) := by cases p; simp_all
      rw [← hpe]
      exact List.mem_cons_self p t
    | false =>
      rw [hp] at h
      exact List.mem_cons.mpr (Or.inr (ih h))

/-- Members of an insert come from the map or are the new binding. -/
theorem insertA_mem {α : Type} {m : List (String × α)} {k : String} {v : α}
    {p : String × α} (h : p ∈ insertA m k v) : p ∈ m ∨ p = (k, v) := by
  unfold insertA at h
  split at h
  · obtain ⟨q, hq, hqe⟩ := List.mem_map.mp h
    by_cases hqk : (q.1 == k) = true
    · rw [if_pos hqk] at hqe
      exact Or.inr hqe.symm
    · rw [if_neg hqk] at hqe
      exact Or.inl (hqe ▸ hq)
  · rcases List.mem_append.mp h with h' | h'
    · exact Or.inl h'
    · exact Or.inr (List.mem_singleton.mp h')

/-- Every binding produced by the index-building fold is keyed by its
node's id and carries a node of the list. -/
theorem foldl_insertA_pairs :
    ∀ (l : List CdpAXNode) (acc : List (String × CdpAXNode))
      (p : String × CdpAXNode),
      p ∈ l.foldl (fun idx n => insertA idx n.nodeId n) acc →
      p ∈ acc ∨ ∃ n ∈ l, p = (n.nodeId, n) := by
  intro l
  induction l with
  | nil => intro acc p h; exact Or.inl h
  | cons x t ih =>
    intro acc p h
    rw [List.foldl_cons] at h
    rcases ih (insertA acc x.nodeId x) p h with h' | ⟨n, hn, he⟩
    · rcases insertA_mem h' with h'' | h''
      · exact Or.inl h''
      · exact Or.inr ⟨x, List.mem_cons_self x t, h''⟩
    · exact Or.inr ⟨n, List.mem_cons_of_mem x hn, he⟩

/-- A hit in `buildTreeIndex l` is a node of `l`, keyed by its id. -/
theorem getA_buildTreeIndex {l : List CdpAXNode} {k : String} {n : CdpAXNode}
    (h : getA (buildTreeIndex l) k = some n) : n ∈ l ∧ n.nodeId = k := by
  have hp := getA_mem_pairs h
  rcases foldl_insertA_pairs l [] (k, n) hp with h' | ⟨n', hn', he⟩
  · simp at h'
  · injection he with h1 h2
    subst h2
    exact ⟨hn', h1.symm⟩

/-- Every summary of an assembled tree is the (children-stripped)
summary of a node reachable from the walk's start through non-ignored
index hits, with matching node id. -/
theorem assembleTree_reachable (index : List (String × CdpAXNode))
    (maxDepth : Nat) :
    ∀ (k depth : Nat) (node : CdpAXNode), maxDepth - depth ≤ k →
      ∀ s ∈ subtreeList (assembleTree node index depth maxDepth),
        ∃ n : CdpAXNode, ReachableUnignored index node n ∧
          s.nodeId = n.nodeId ∧ stripKids s = cdpAXNodeToSummary n := by
  intro k
  induction k with
  | zero =>
    intro depth node hk s hs
    rw [assembleTree, dif_pos (Or.inl (by omega : depth ≥ maxDepth))] at hs
    rw [subtreeList_of_none rfl, List.mem_singleton] at hs
    exact ⟨node, ReachableUnignored.refl, by rw [hs]; rfl, by
      rw [hs]; exact stripKids_of_none rfl⟩
  | succ k ih =>
    intro depth node hk s hs
    by_cases hguard : depth ≥ maxDepth ∨ node.childIds = none ∨
        node.childIds = some []
    · rw [assembleTree, dif_pos hguard] at hs
      rw [subtreeList_of_none rfl, List.mem_singleton] at hs
      exact ⟨node, ReachableUnignored.refl, by rw [hs]; rfl, by
        rw [hs]; exact stripKids_of_none rfl⟩
    · rw [assembleTree, dif_neg hguard] at hs
      have hd : depth < maxDepth := by
        rcases not_or.mp hguard with ⟨hle, _⟩
        omega
      by_cases hlen : 0 < ((node.childIds.getD []).filterMap (fun childId =>
          match getA index childId with
          | some child =>
            if child.ignored then none
            else some (assembleTree child index (depth + 1) maxDepth)
          | none => none)).length
      · rw [if_pos hlen] at hs
        rcases mem_subtreeList_iff.mp hs with hroot | ⟨c, hc, hsc⟩
        · refine ⟨node, ReachableUnignored.refl, by rw [hroot]; rfl, ?_⟩
          rw [hroot, stripKids_set]
          exact stripKids_of_none rfl
        · simp only [Option.getD_some] at hc
          obtain ⟨cid, hcid, hcc⟩ := List.mem_filterMap.mp hc
          cases hga : getA index cid with
          | none => rw [hga] at hcc; simp at hcc
          | some child =>
            rw [hga] at hcc
            cases hcig : child.ignored with
            | true => simp [hcig] at hcc
            | false =>
              simp [hcig] at hcc
              rw [← hcc] at hsc
              obtain ⟨n, hreach, hid, hstrip⟩ :=
                ih (depth + 1) child (by omega) s hsc
              exact ⟨n, reachable_prepend hcid hga hcig hreach, hid, hstrip⟩
      · rw [if_neg hlen] at hs
        rw [subtreeList_of_none rfl, List.mem_singleton] at hs
        exact ⟨node, ReachableUnignored.refl, by rw [hs]; rfl, by
          rw [hs]; exact stripKids_of_none rfl⟩

/-- Claim C8: in a tree assembled from a root of the ignored-filtered
list over the index built from that filtered list, every summary is the
(children-stripped) summary, with matching node id, of a node of the
filtered list that is reachable from the root along non-ignored index
hits — so no ignored node appears, nor any descendant reachable from
the root only through one; and, explicitly, a summary never carries the
node id of an ignored node whose id is not also carried by some
non-ignored node of the list. -/
theorem ignored_nodes_excluded (nodes : List CdpAXNode) (root : CdpAXNode)
    (maxDepth : Nat)
    (hroot : root ∈ nodes.filter (fun n => !n.ignored)) :
    (∀ s ∈ subtreeList (assembleTree root
        (buildTreeIndex (nodes.filter (fun n => !n.ignored))) 0 maxDepth),
      ∃ n ∈ nodes.filter (fun n => !n.ignored),
        ReachableUnignored (buildTreeIndex (nodes.filter (fun n => !n.ignored)))
          root n ∧
        s.nodeId = n.nodeId ∧ stripKids s = cdpAXNodeToSummary n) ∧
    (∀ x ∈ nodes, x.ignored = true →
      (∀ n ∈ nodes, n.nodeId = x.nodeId → n.ignored = true) →
      ∀ s ∈ subtreeList (assembleTree root
          (buildTreeIndex (nodes.filter (fun n => !n.ignored))) 0 maxDepth),
        s.nodeId ≠ x.nodeId) := by
  have hpart1 : ∀ s ∈ subtreeList (assembleTree root
      (buildTreeIndex (nodes.filter (fun n => !n.ignored))) 0 maxDepth),
      ∃ n ∈ nodes.filter (fun n => !n.ignored),
        ReachableUnignored (buildTreeIndex (nodes.filter (fun n => !n.ignored)))
          root n ∧
        s.nodeId = n.nodeId ∧ stripKids s = cdpAXNodeToSummary n := by
    intro s hs
    obtain ⟨n, hreach, hid, hstrip⟩ :=
      assembleTree_reachable
        (buildTreeIndex (nodes.filter (fun n => !n.ignored))) maxDepth
        maxDepth 0 root (by omega) s hs
    refine ⟨n, ?_, hreach, hid, hstrip⟩
    rcases reachable_cases hreach with rfl | ⟨cid, hga, _⟩
    · exact hroot
    · have := getA_buildTreeIndex hga
      exact this.1
  refine ⟨hpart1, ?_⟩
  intro x hx hxig huniq s hs hsx
  obtain ⟨n, hmem, _, hid, _⟩ := hpart1 s hs
  have hnn := List.mem_filter.mp hmem
  have hfalse : n.ignored = false := by simpa using hnn.2
  have htrue : n.ignored = true := huniq n hnn.1 (by rw [← hid]; exact hsx)
  rw [hfalse] at htrue
  cases htrue

/-- Claim C8 witness: the exclusion theorem applied to the concrete
node list containing an ignored node, at the assembled root summary;
the tree's root summary does not carry the ignored node's id. -/
theorem ignored_nodes_excluded_witness :
    (∃ n ∈ sampleNodes.filter (fun n => !n.ignored),
      ReachableUnignored
        (buildTreeIndex (sampleNodes.filter (fun n => !n.ignored))) rootNode n ∧
      (assembleTree rootNode
          (buildTreeIndex (sampleNodes.filter (fun n => !n.ignored)))
          0 5).nodeId = n.nodeId ∧
      stripKids (assembleTree rootNode
          (buildTreeIndex (sampleNodes.filter (fun n => !n.ignored))) 0 5) =
        cdpAXNodeToSummary n) ∧
    (assembleTree rootNode
        (buildTreeIndex (sampleNodes.filter (fun n => !n.ignored)))
        0 5).nodeId ≠ ignoredNode.nodeId :=
  ⟨(ignored_nodes_excluded sampleNodes rootNode 5 (by decide)).1 _
      (self_mem_subtreeList _),
   (ignored_nodes_excluded sampleNodes rootNode 5 (by decide)).2 ignoredNode
      (by decide) rfl (by decide) _ (self_mem_subtreeList _)⟩
